import Mathlib

/-!
Shallow embedding of src/clcache.py (a compiler cache for Microsoft Visual
Studio) and proofs about its specification claims.

Command-line arguments are modelled as lists of characters; the bytes fed to
the SHA-1 hash are modelled as lists of naturals (byte values).  The SHA-1
digest itself is a fixed function of its input bytes, so a cache key is
modelled by the exact byte sequence that the source feeds to the hash
(`sha.update` calls concatenate): equal byte sequences give equal digests,
and — under the collision resistance the spec itself assumes of the digest —
distinct byte sequences give distinct digests.

External effects (the preprocessor subprocess, the filesystem, the durable
statistics and configuration stores) are modelled by explicit parameters and
state passing.
-/

namespace Clcache

/-- Arguments and paths are sequences of characters. -/
abbrev Arg := List Char

/-- Errors the Python code can raise in the modelled paths: ValueError from
list.remove, IndexError from indexing an empty string or list, OSError from
Popen on an unstartable subprocess, IOError from filesystem operations. -/
inductive PyError where
  | valueError
  | indexError
  | osError
  | ioError
deriving DecidableEq

/-! Decimal rendering of naturals, as Python `str` does for the nonnegative
integers `long(os.path.getmtime(...))` and `os.path.getsize(...)`. -/

/-- Fuel-driven little-endian decimal digits of a natural number. -/
def decAux : Nat → Nat → List Nat
  | 0, _ => []
  | fuel + 1, n => if n = 0 then [] else n % 10 :: decAux fuel (n / 10)

/-- Little-endian decimal digits of a natural number (empty for 0). -/
def decimalDigits (n : Nat) : List Nat := decAux n n

/-- ASCII bytes of Python str of a nonnegative integer: most significant
digit first, and the single byte 48 for zero. -/
def decimalBytes (n : Nat) : List Nat :=
  if n = 0 then [48] else ((decimalDigits n).map (fun d => d + 48)).reverse

/-! Normalisation of the command line (ObjectCache.__normalizedCommandLine). -/

/-- Excluded prefixes, verbatim from the source's loop over preprocessorArg. -/
def preprocessorArgs : List Arg :=
  [ "/AI".data, "/C".data, "/E".data, "/P".data, "/FI".data, "/u".data, "/X".data,
    "/FU".data, "/D".data, "/EP".data, "/Fx".data, "/U".data, "/I".data ]

/-- An argument is relevant when no excluded switch is a prefix of it
(the source compares arg[:len(preprocessorArg)] with preprocessorArg). -/
def isRelevantArgument (arg : Arg) : Bool :=
  !(preprocessorArgs.any (fun p => arg.take p.length == p))

/-- The source's filter(isRelevantArgument, cmdline). -/
def normalizedCommandLine (cmdline : List Arg) : List Arg :=
  cmdline.filter isRelevantArgument

/-! Key computation (ObjectCache.computeKey). -/

/-- Modification time (after Python long truncation) and size of the compiler
binary, read by os.path.getmtime and os.path.getsize. -/
structure Fingerprint where
  mtime : Nat
  size : Nat
deriving DecidableEq

/-- Result of running the preprocessing subprocess: Popen may fail to start,
otherwise the process runs and yields an exit status and captured stdout
bytes (stderr is discarded by the source). -/
inductive PPOutcome where
  | startFailure
  | ran (returncode : Int) (stdout : List Nat)
deriving DecidableEq

/-- Remove the first occurrence of an element, as Python list.remove does
once presence is known. -/
def removeFirst : List Arg → Arg → List Arg
  | [], _ => []
  | x :: xs, y => if x = y then xs else x :: removeFirst xs y

/-- The preprocessing command built by computeKey: the command line with the
compiler binary substituted for argument 0, the first "/c" removed, and
"/EP" appended. -/
def ppCommand (compilerBinary : Arg) (rest : List Arg) : List Arg :=
  removeFirst (compilerBinary :: rest) "/c".data ++ ["/EP".data]

/-- Bytes of a character sequence (sha.update on a Python 2 str). -/
def strBytes (s : List Char) : List Nat := s.map Char.toNat

/-- Python ' '.join. -/
def joinSpace (xs : List Arg) : List Char := List.intercalate [' '] xs

/-- The exact byte sequence the source feeds to the SHA-1 object, in order:
str(long(mtime)), str(size), ' '.join(normalizedCmdLine), and the raw
preprocessed source bytes.  The cache key is the SHA-1 digest of this
sequence, so it is modelled by the sequence itself. -/
def keyMessage (fp : Fingerprint) (normalized : List Arg) (preprocessedSourceCode : List Nat) :
    List Nat :=
  decimalBytes fp.mtime ++ decimalBytes fp.size ++
    strBytes (joinSpace normalized) ++ preprocessedSourceCode

/-- Body of computeKey on a nonempty command line whose head has been
replaced by the compiler binary: list.remove("/c") raises ValueError when
"/c" is absent from the substituted command; Popen raises OSError when the
subprocess cannot be started; otherwise the exit status is ignored and the
key is computed from whatever stdout was captured. -/
def computeKeyAux (fp : Fingerprint) (runPP : List Arg → PPOutcome)
    (compilerBinary : Arg) (rest : List Arg) : Except PyError (List Nat) :=
  if "/c".data ∈ compilerBinary :: rest then
    match runPP (ppCommand compilerBinary rest) with
    | .startFailure => .error .osError
    | .ran _ stdout => .ok (keyMessage fp (normalizedCommandLine rest) stdout)
  else
    .error .valueError

/-- ObjectCache.computeKey: the subprocess is modelled by the parameter
runPP mapping the executed command to its outcome; an empty command line
would make the Python assignment ppcmd[0] raise IndexError. -/
def computeKey (fp : Fingerprint) (runPP : List Arg → PPOutcome)
    (compilerBinary : Arg) (commandLine : List Arg) : Except PyError (List Nat) :=
  match commandLine with
  | [] => .error .indexError
  | _ :: rest => computeKeyAux fp runPP compilerBinary rest

/-- A preprocessor stub used by concrete instantiations: every command
starts, exits 0 and produces empty output. -/
def ppStub : List Arg → PPOutcome := fun _ => PPOutcome.ran 0 []

example : isRelevantArgument "/c".data = true := by decide
example : isRelevantArgument "/DFOO".data = false := by decide
example : normalizedCommandLine ["/c".data, "/DFOO".data, "foo.cpp".data] =
    ["/c".data, "foo.cpp".data] := by decide
example : decimalBytes 0 = [48] := by decide
example : decimalBytes 120 = [49, 50, 48] := by decide
example : computeKey ⟨1, 2⟩ (fun _ => PPOutcome.ran 1 []) "cl".data ["x".data, "/c".data] =
    Except.ok [49, 50, 47, 99] := rfl
example : computeKey ⟨1, 2⟩ ppStub "cl".data ["x".data, "y".data] =
    Except.error PyError.valueError := rfl

/-! Command classification (analyzeCommandLine). -/

/-- Python truthiness of an optional string: None and the empty string are
falsy, any other string is truthy. -/
def pyFalsyOpt : Option Arg → Bool
  | none => true
  | some [] => true
  | some (_ :: _) => false

/-- Path components are separated by slash or backslash; modelled library
behaviour of os.path on Windows paths. -/
def isPathSep (c : Char) : Bool := c == '/' || c == '\\'

/-- Modelled library behaviour of os.path.basename: the part after the last
path separator. -/
def baseName (p : Arg) : Arg := (p.reverse.takeWhile (fun c => !(isPathSep c))).reverse

/-- Modelled library behaviour of os.path.splitext's root: everything before
the last dot, or the whole name when it has no dot. -/
def stripExtension (p : Arg) : Arg :=
  if '.' ∈ p then ((p.reverse.dropWhile (fun c => !(c == '.'))).drop 1).reverse else p

/-- Modelled library behaviour of os.path.join with a single separator. -/
def pathJoin (a b : Arg) : Arg := a ++ '/' :: b

/-- Modelled from the spec: the default object file
cwd/(source base name without extension).obj computed by analyzeCommandLine
through library path functions outside src/. -/
def defaultObjectFile (cwd sourceFile : Arg) : Arg :=
  pathJoin cwd (stripExtension (baseName sourceFile) ++ ".obj".data)

/-- The loop of analyzeCommandLine over cmdline[1:], carrying the
foundCompileOnlySwitch, sourceFile and outputFile state; the elif chain is
translated in source order, and indexing arg[0] on an empty argument raises
IndexError.  On loop exit the source substitutes the default output file
when outputFile is falsy and sourceFile is truthy, and returns the
Python-truthiness of foundCompileOnlySwitch and sourceFile. -/
def analyzeLoop (cwd : Arg) :
    Bool → Option Arg → Option Arg → List Arg →
      Except PyError (Bool × Option Arg × Option Arg)
  | found, sourceFile, outputFile, [] =>
    let outputFile2 :=
      match outputFile, sourceFile with
      | o, some s => if pyFalsyOpt o && !(pyFalsyOpt (some s)) then
            some (defaultObjectFile cwd s)
          else o
      | o, none => o
    .ok (found && !(pyFalsyOpt sourceFile), sourceFile, outputFile2)
  | found, sourceFile, outputFile, arg :: rest =>
    if arg = "/link".data then .ok (false, none, none)
    else if arg = "/c".data then analyzeLoop cwd true sourceFile outputFile rest
    else if arg.take 3 = "/Fo".data then
      analyzeLoop cwd found sourceFile (some (arg.drop 3)) rest
    else
      match arg with
      | [] => .error .indexError
      | c :: _ =>
        if c = '/' then analyzeLoop cwd found sourceFile outputFile rest
        else
          match sourceFile with
          | some _ => .ok (false, none, none)
          | none => analyzeLoop cwd found (some arg) outputFile rest

/-- analyzeCommandLine: scans cmdline[1:]; cwd is the working directory read
by os.getcwd for the default output path. -/
def analyzeCommandLine (cwd : Arg) (cmdline : List Arg) :
    Except PyError (Bool × Option Arg × Option Arg) :=
  analyzeLoop cwd false none none cmdline.tail

example : analyzeCommandLine "/w".data ["cl".data, "/c".data, "foo.cpp".data, "/link".data] =
    Except.ok (false, none, none) := rfl
example : analyzeCommandLine "/w".data ["cl".data, "/c".data, "foo.cpp".data] =
    Except.ok (true, some "foo.cpp".data, some "/w/foo.obj".data) := rfl
example : analyzeCommandLine "/w".data ["cl".data, "".data, "/link".data] =
    Except.error PyError.indexError := rfl
example : analyzeCommandLine "/w".data ["cl".data, "a.c".data, "b.c".data] =
    Except.ok (false, none, none) := rfl

/-! Cache statistics (CacheStatistics): the five durable counters. -/

/-- The durable counters of stats.txt.  CacheSize is an integer because the
eviction sweep subtracts sizes from whatever the stored counter holds. -/
structure Stats where
  inappropriateInvocations : Int
  cacheEntries : Int
  cacheSize : Int
  cacheHits : Int
  cacheMisses : Int
deriving DecidableEq

/-- CacheStatistics.registerCacheMiss. -/
def registerCacheMiss (s : Stats) : Stats := { s with cacheMisses := s.cacheMisses + 1 }

/-- CacheStatistics.registerCacheHit. -/
def registerCacheHit (s : Stats) : Stats := { s with cacheHits := s.cacheHits + 1 }

/-- CacheStatistics.registerCacheEntry: increments the entry count and adds
the object size to the cache size. -/
def registerCacheEntry (s : Stats) (size : Int) : Stats :=
  { s with cacheEntries := s.cacheEntries + 1, cacheSize := s.cacheSize + size }

/-- CacheStatistics.setCacheSize. -/
def setCacheSize (s : Stats) (size : Int) : Stats := { s with cacheSize := size }

/-! Eviction (ObjectCache.clean). -/

/-- One on-disk cache entry as the sweep sees it: an identifying key, the
object blob's last access time (os.path.getatime) and its size
(os.path.getsize). -/
structure Entry where
  key : Nat
  atime : Nat
  size : Int
deriving DecidableEq

/-- Stable insertion of an entry into a list sorted by descending access
time: the entry goes after every earlier element whose access time is at
least as large, matching Python sorted(key, reverse=True). -/
def insertDesc (e : Entry) : List Entry → List Entry
  | [] => [e]
  | x :: xs => if x.atime < e.atime then e :: x :: xs else x :: insertDesc e xs

/-- The source's sorted(objectInfos, key, reverse=True): entries ordered by
descending access time, most recently used first. -/
def sortByAtimeDesc (entries : List Entry) : List Entry := entries.foldr insertDesc []

/-- The eviction for-loop: each visited entry is removed (rmtree) and its
size subtracted from the running total; the loop breaks as soon as the
running total drops below the maximum.  Returns the final running size and
the surviving entries of the sweep list. -/
def cleanLoop (maximumSize : Int) : Int → List Entry → Int × List Entry
  | currentSize, [] => (currentSize, [])
  | currentSize, e :: rest =>
    let currentSize2 := currentSize - e.size
    if currentSize2 < maximumSize then (currentSize2, rest)
    else cleanLoop maximumSize currentSize2 rest

/-- ObjectCache.clean: a no-op when the recorded size is below the maximum;
otherwise sweeps the entries in descending access-time order and stores the
final running size back into the statistics.  Returns the updated statistics
and the entries still on disk. -/
def clean (s : Stats) (entries : List Entry) (maximumSize : Int) : Stats × List Entry :=
  if s.cacheSize < maximumSize then (s, entries)
  else
    let sorted := sortByAtimeDesc entries
    let (finalSize, remaining) := cleanLoop maximumSize s.cacheSize sorted
    (setCacheSize s finalSize, remaining)

example : clean ⟨0, 3, 600, 0, 0⟩ [⟨1, 1, 100⟩, ⟨2, 2, 200⟩, ⟨3, 3, 300⟩] 250 =
    (⟨0, 3, 100, 0, 0⟩, [⟨1, 1, 100⟩]) := by decide

/-! Configuration (Configuration over PersistentJSONDict). -/

/-- The durable key-value store of config.txt, holding integer settings. -/
abbrev ConfigStore := List (Arg × Int)

/-- PersistentJSONDict.__contains__. -/
def storeContains (s : ConfigStore) (k : Arg) : Bool := s.any (fun p => p.1 == k)

/-- PersistentJSONDict.__getitem__ (0 stands in for the KeyError case, which
never occurs after Configuration.__init__ has installed the default). -/
def storeGet (s : ConfigStore) (k : Arg) : Int :=
  (((s.find? (fun p => p.1 == k)).map Prod.snd).getD 0)

/-- PersistentJSONDict.__setitem__. -/
def storeSet (s : ConfigStore) (k : Arg) (v : Int) : ConfigStore :=
  (k, v) :: s.filter (fun p => !(p.1 == k))

/-- The MaximumCacheSize key of the configuration store. -/
def maximumCacheSizeKey : Arg := "MaximumCacheSize".data

/-- The source's default: 1024 * 1024 * 1000 bytes. -/
def defaultMaximumCacheSize : Int := 1024 * 1024 * 1000

/-- Configuration.__init__: installs the default for each missing setting. -/
def configurationInit (cfg : ConfigStore) : ConfigStore :=
  if storeContains cfg maximumCacheSizeKey then cfg
  else storeSet cfg maximumCacheSizeKey defaultMaximumCacheSize

/-- Configuration.maximumCacheSize. -/
def maximumCacheSize (cfg : ConfigStore) : Int := storeGet cfg maximumCacheSizeKey

example : maximumCacheSize (configurationInit []) = 1048576000 := by decide

/-! Storage layout and the put path (ObjectCache.setEntry). -/

/-- ObjectCache.__cacheEntryDir: cacheDir/key[:2]/key. -/
def cacheEntryDir (cacheDir key : Arg) : Arg := pathJoin (pathJoin cacheDir (key.take 2)) key

/-- ObjectCache.cachedObjectName: the object blob inside the entry directory. -/
def cachedObjectName (cacheDir key : Arg) : Arg :=
  pathJoin (cacheEntryDir cacheDir key) "object".data

/-- ObjectCache.__cachedCompilerOutputName: the captured output blob. -/
def cachedCompilerOutputName (cacheDir key : Arg) : Arg :=
  pathJoin (cacheEntryDir cacheDir key) "output.txt".data

/-- Filesystem operations a put may perform; rename is the atomic publish
primitive the spec calls for. -/
inductive FsOp where
  | makeDirs (path : Arg)
  | copyFile (src dst : Arg)
  | writeFile (path : Arg)
  | rename (src dst : Arg)
deriving DecidableEq

/-- The exact operation sequence of ObjectCache.setEntry: create the entry
directory when absent, copy the object file to its final name, then write
the captured compiler output — all directly at the final paths. -/
def setEntryOps (entryDirExists : Bool) (cacheDir key objectFileName : Arg) : List FsOp :=
  (if entryDirExists then [] else [FsOp.makeDirs (cacheEntryDir cacheDir key)]) ++
    [FsOp.copyFile objectFileName (cachedObjectName cacheDir key),
     FsOp.writeFile (cachedCompilerOutputName cacheDir key)]

/-- A filesystem state: the directories and files that exist. -/
structure FsState where
  dirs : List Arg
  files : List Arg
deriving DecidableEq

/-- The empty filesystem (fresh shard, no entry yet). -/
def initialFsState : FsState := ⟨[], []⟩

/-- Effect of one operation on the filesystem state. -/
def applyOp (s : FsState) : FsOp → FsState
  | .makeDirs p => { s with dirs := p :: s.dirs }
  | .copyFile _ dst => { s with files := dst :: s.files }
  | .writeFile p => { s with files := p :: s.files }
  | .rename src dst =>
    { dirs := s.dirs.map (fun d => if d = src then dst else d),
      files := s.files.map (fun f => if f = src then dst else f) }

/-- Effect of a sequence of operations, applied in order. -/
def applyOps (s : FsState) (ops : List FsOp) : FsState := ops.foldl applyOp s

/-! The cache-miss path of the main program (lines 301 to 312): register the
miss, run the real compiler, and on success publish the entry, update the
statistics and enforce the budget.  An exception from setEntry propagates
before registerCacheEntry runs. -/

/-- The miss path: returnCode is the real compiler's exit status; putFailure
is the filesystem error raised inside setEntry, if any; objSize is
os.path.getsize of the produced object.  Returns the statistics, the on-disk
entries after any eviction, and either the propagated error or the exit
code. -/
def missPath (s : Stats) (returnCode : Int) (putFailure : Option PyError)
    (objSize maximumSize : Int) (entries : List Entry) :
    Stats × List Entry × Except PyError Int :=
  let s1 := registerCacheMiss s
  if returnCode = 0 then
    match putFailure with
    | some e => (s1, entries, .error e)
    | none =>
      let s2 := registerCacheEntry s1 objSize
      let (s3, remaining) := clean s2 entries maximumSize
      (s3, remaining, .ok returnCode)
  else (s1, entries, .ok returnCode)

/-! Helper lemmas: decimal strings of distinct naturals are distinct, and
remain distinct after appending a common suffix. -/

/-- Value of a little-endian decimal digit list. -/
def unDigits : List Nat → Nat
  | [] => 0
  | d :: ds => d + 10 * unDigits ds

theorem unDigits_decAux : ∀ (fuel n : Nat), n ≤ fuel → unDigits (decAux fuel n) = n := by
  intro fuel
  induction fuel with
  | zero =>
    intro n hn
    have h0 : n = 0 := Nat.le_zero.mp hn
    subst h0
    rfl
  | succ fuel ih =>
    intro n hn
    by_cases h0 : n = 0
    · subst h0; rfl
    · have hpos : 0 < n := Nat.pos_of_ne_zero h0
      have hdiv : n / 10 ≤ fuel := by
        have := Nat.div_lt_self hpos (by norm_num : (1 : Nat) < 10)
        omega
      simp only [decAux, if_neg h0, unDigits]
      rw [ih _ hdiv, Nat.mod_add_div]

theorem unDigits_decimalDigits (n : Nat) : unDigits (decimalDigits n) = n :=
  unDigits_decAux n n (Nat.le_refl n)

theorem decimalDigits_injective : Function.Injective decimalDigits := by
  intro a b h
  rw [← unDigits_decimalDigits a, ← unDigits_decimalDigits b, h]

theorem decimalBytes_injective : Function.Injective decimalBytes := by
  have hmapinj : Function.Injective (fun d : Nat => d + 48) := fun x y hxy => by
    dsimp only at hxy; omega
  have hsingle : ∀ n : Nat, ((decimalDigits n).map (fun d => d + 48)).reverse = [48] → n = 0 := by
    intro n hn
    have hmap : (decimalDigits n).map (fun d => d + 48) = [48] := by
      have := congrArg List.reverse hn
      simpa using this
    have hdig : decimalDigits n = [0] := by
      rcases hd : decimalDigits n with _ | ⟨x, xs⟩
      · rw [hd] at hmap; simp at hmap
      · rw [hd] at hmap
        simp only [List.map_cons] at hmap
        have hx : x + 48 = 48 := (List.cons.inj hmap).1
        have hxs : xs.map (fun d => d + 48) = [] := (List.cons.inj hmap).2
        have hxs0 : xs = [] := List.map_eq_nil_iff.mp hxs
        have hx0 : x = 0 := by omega
        rw [hx0, hxs0]
    have := unDigits_decimalDigits n
    rw [hdig] at this
    simpa [unDigits] using this.symm
  intro a b h
  unfold decimalBytes at h
  by_cases ha : a = 0 <;> by_cases hb : b = 0
  · exact ha.trans hb.symm
  · rw [if_pos ha, if_neg hb] at h
    exact absurd (hsingle b h.symm) hb
  · rw [if_neg ha, if_pos hb] at h
    exact absurd (hsingle a h) ha
  · rw [if_neg ha, if_neg hb] at h
    exact decimalDigits_injective
      (List.map_injective_iff.mpr hmapinj (List.reverse_injective h))

theorem decimalBytes_append_cancel {a b : Nat} {r : List Nat}
    (h : decimalBytes a ++ r = decimalBytes b ++ r) : a = b :=
  decimalBytes_injective (List.append_cancel_right h)

/-! Claim theorems. -/

/-- C1 (code_bug evidence): evaluation of ObjectCache.clean on the spec's
Scenario D — three entries of sizes 100, 200, 300 bytes with access times
1 < 2 < 3, recorded size 600, budget 250.  The code sorts by descending
access time (reverse=True) and so evicts the most recently used entries
first: it removes the atime-3 and atime-2 entries and keeps only the
least-recently-used atime-1 entry with final size 100, while the claim
demands that only the atime-3 entry remain. -/
theorem clean_scenario_removes_most_recently_used_first :
    clean ⟨0, 3, 600, 0, 0⟩ [⟨1, 1, 100⟩, ⟨2, 2, 200⟩, ⟨3, 3, 300⟩] 250 =
      (⟨0, 3, 100, 0, 0⟩, [⟨1, 1, 100⟩]) := by decide

/-- C2 (code_bug evidence): computeKey never inspects the preprocessing
subprocess's exit status.  Here the preprocessor exits with status 1 and
produces empty output, yet computeKey returns an ok cache key hashed over
the empty preprocessed source instead of failing; no PreprocessError exists
anywhere in the code. -/
theorem computeKey_ignores_preprocessor_exit_status :
    computeKey ⟨1, 2⟩ (fun _ => PPOutcome.ran 1 []) "cl".data
      ["clcache".data, "/c".data, "foo.cpp".data] =
      Except.ok (keyMessage ⟨1, 2⟩ ["/c".data, "foo.cpp".data] []) := rfl

/-- C3 (counterexample): with no stored setting, the configured maximum
cache size is 1024 * 1024 * 1000 = 1 048 576 000 bytes, which is not the
claimed 1 000 000 000 bytes. -/
theorem maximumCacheSize_default_counterexample :
    maximumCacheSize (configurationInit []) = 1048576000 ∧
      (1048576000 : Int) ≠ 1000000000 :=
  ⟨by decide, by decide⟩

/-- C3 (amended): when the MaximumCacheSize setting is absent from the
durable configuration store, the configured maximum cache size defaults to
exactly 1 048 576 000 bytes (1024 * 1024 * 1000). -/
theorem maximumCacheSize_default (cfg : ConfigStore)
    (habsent : storeContains cfg maximumCacheSizeKey = false) :
    maximumCacheSize (configurationInit cfg) = 1048576000 := by
  simp [configurationInit, habsent, maximumCacheSize, storeGet, storeSet,
    defaultMaximumCacheSize, List.find?]

theorem maximumCacheSize_default_witness :
    maximumCacheSize (configurationInit []) = 1048576000 :=
  maximumCacheSize_default [] rfl

/-- C4: two invocations that differ only in the order or presence of
excluded preprocessing-control flags — formalised as: their retained
(relevant) argument subsequences coincide — with the same compiler
fingerprint and byte-identical preprocessed output, yield the same cache
key. -/
theorem computeKey_invariant_under_excluded_flags
    (fp : Fingerprint) (runPP : List Arg → PPOutcome) (compilerBinary a1 a2 : Arg)
    (t1 t2 : List Arg) (rc1 rc2 : Int) (out : List Nat)
    (hnorm : normalizedCommandLine t1 = normalizedCommandLine t2)
    (h1 : runPP (ppCommand compilerBinary t1) = PPOutcome.ran rc1 out)
    (h2 : runPP (ppCommand compilerBinary t2) = PPOutcome.ran rc2 out) :
    computeKey fp runPP compilerBinary (a1 :: t1) =
      computeKey fp runPP compilerBinary (a2 :: t2) := by
  have hrel : isRelevantArgument "/c".data = true := by decide
  have hmem : ("/c".data ∈ compilerBinary :: t1) ↔ ("/c".data ∈ compilerBinary :: t2) := by
    constructor
    · intro h
      rcases List.mem_cons.mp h with h | h
      · rw [← h]; exact List.mem_cons_self _ _
      · have hf : "/c".data ∈ normalizedCommandLine t1 := List.mem_filter.mpr ⟨h, hrel⟩
        rw [hnorm] at hf
        exact List.mem_cons_of_mem _ (List.mem_filter.mp hf).1
    · intro h
      rcases List.mem_cons.mp h with h | h
      · rw [← h]; exact List.mem_cons_self _ _
      · have hf : "/c".data ∈ normalizedCommandLine t2 := List.mem_filter.mpr ⟨h, hrel⟩
        rw [← hnorm] at hf
        exact List.mem_cons_of_mem _ (List.mem_filter.mp hf).1
  show computeKeyAux fp runPP compilerBinary t1 = computeKeyAux fp runPP compilerBinary t2
  unfold computeKeyAux
  by_cases hc : "/c".data ∈ compilerBinary :: t1
  · rw [if_pos hc, if_pos (hmem.mp hc), h1, h2, hnorm]
  · rw [if_neg hc, if_neg (fun hx => hc (hmem.mpr hx))]

theorem computeKey_invariant_under_excluded_flags_witness :
    computeKey ⟨7, 9⟩ ppStub "cl.exe".data
      ["clcache".data, "/c".data, "/DFOO".data, "foo.cpp".data] =
    computeKey ⟨7, 9⟩ ppStub "cl.exe".data
      ["clcache".data, "/Iinc".data, "/c".data, "foo.cpp".data] :=
  computeKey_invariant_under_excluded_flags ⟨7, 9⟩ ppStub "cl.exe".data
    "clcache".data "clcache".data ["/c".data, "/DFOO".data, "foo.cpp".data]
    ["/Iinc".data, "/c".data, "foo.cpp".data] 0 0 [] (by decide) rfl rfl

/-- C5: the normalisation step is order-preserving and verbatim — the
normalised list is a sublist of the input, and every argument matched by no
excluded-switch prefix is retained in it. -/
theorem normalizedCommandLine_retains_relevant_arguments (cmdline : List Arg) :
    List.Sublist (normalizedCommandLine cmdline) cmdline ∧
      ∀ arg, arg ∈ cmdline → isRelevantArgument arg = true →
        arg ∈ normalizedCommandLine cmdline :=
  ⟨List.filter_sublist cmdline, fun _ hmem hrel => List.mem_filter.mpr ⟨hmem, hrel⟩⟩

theorem normalizedCommandLine_retains_relevant_arguments_witness :
    "foo.cpp".data ∈ normalizedCommandLine ["/c".data, "/DFOO".data, "foo.cpp".data] :=
  (normalizedCommandLine_retains_relevant_arguments
    ["/c".data, "/DFOO".data, "foo.cpp".data]).2 "foo.cpp".data (by decide) (by decide)

/-- C6 (counterexample): the decimal strings of modification time and size
are concatenated without a separator, so the distinct fingerprints
(mtime 12, size 3) and (mtime 1, size 23) feed the identical byte sequence
to the hash and computeKey returns the same cache key, while the claim
demands different keys for any fingerprint change. -/
theorem computeKey_fingerprint_collision_counterexample :
    computeKey ⟨12, 3⟩ ppStub "cl".data ["clcache".data, "/c".data, "foo.cpp".data] =
      computeKey ⟨1, 23⟩ ppStub "cl".data ["clcache".data, "/c".data, "foo.cpp".data] ∧
    Fingerprint.mk 12 3 ≠ Fingerprint.mk 1 23 :=
  ⟨rfl, by decide⟩

/-- C6 (amended): holding the normalised argument list and the preprocessed
source fixed, changing exactly one fingerprint component — the modification
time with the size fixed, or the size with the modification time fixed —
changes the byte sequence fed to the hash, hence (by the collision
resistance the spec assumes of the digest) the cache key. -/
theorem computeKey_differs_on_single_fingerprint_change
    (m1 s1 m2 s2 : Nat) (runPP : List Arg → PPOutcome) (compilerBinary a : Arg)
    (t : List Arg) (rc : Int) (out : List Nat)
    (hchange : (m1 ≠ m2 ∧ s1 = s2) ∨ (m1 = m2 ∧ s1 ≠ s2))
    (hc : "/c".data ∈ compilerBinary :: t)
    (hrun : runPP (ppCommand compilerBinary t) = PPOutcome.ran rc out) :
    computeKey ⟨m1, s1⟩ runPP compilerBinary (a :: t) ≠
      computeKey ⟨m2, s2⟩ runPP compilerBinary (a :: t) := by
  intro heq
  have hkey : ∀ m s : Nat, computeKey ⟨m, s⟩ runPP compilerBinary (a :: t) =
      Except.ok (keyMessage ⟨m, s⟩ (normalizedCommandLine t) out) := by
    intro m s
    show computeKeyAux ⟨m, s⟩ runPP compilerBinary t = _
    unfold computeKeyAux
    rw [if_pos hc, hrun]
  rw [hkey m1 s1, hkey m2 s2] at heq
  have hmsg := Except.ok.inj heq
  simp only [keyMessage, List.append_assoc] at hmsg
  rcases hchange with ⟨hm, hs⟩ | ⟨hm, hs⟩
  · rw [hs] at hmsg
    exact hm (decimalBytes_append_cancel hmsg)
  · rw [hm] at hmsg
    exact hs (decimalBytes_append_cancel (List.append_cancel_left hmsg))

theorem computeKey_differs_on_single_fingerprint_change_witness :
    computeKey ⟨1, 5⟩ ppStub "cl".data ["clcache".data, "/c".data] ≠
      computeKey ⟨2, 5⟩ ppStub "cl".data ["clcache".data, "/c".data] :=
  computeKey_differs_on_single_fingerprint_change 1 5 2 5 ppStub "cl".data
    "clcache".data ["/c".data] 0 [] (Or.inl ⟨by decide, rfl⟩) (by decide) rfl

/-- Helper for C7: whenever "/link" occurs in the scanned arguments and no
scanned argument is the empty string, the classifier loop returns the
not-cacheable triple (False, None, None) from any carried state. -/
theorem analyzeLoop_link_not_cacheable (cwd : Arg) :
    ∀ (tail : List Arg) (found : Bool) (sourceFile outputFile : Option Arg),
      "/link".data ∈ tail → (∀ arg ∈ tail, arg ≠ []) →
      analyzeLoop cwd found sourceFile outputFile tail = .ok (false, none, none) := by
  intro tail
  induction tail with
  | nil => intro _ _ _ h _; exact absurd h (List.not_mem_nil _)
  | cons arg rest ih =>
    intro found sourceFile outputFile hlink hne
    have hargne : arg ≠ [] := hne arg (List.mem_cons_self _ _)
    have hne' : ∀ a ∈ rest, a ≠ [] := fun a ha => hne a (List.mem_cons_of_mem _ ha)
    rcases arg with _ | ⟨c, cs⟩
    · exact absurd rfl hargne
    · by_cases h4 : c = '/'
      · subst h4
        by_cases hA : cs = "link".data
        · simp [analyzeLoop, hA]
        · have hlink' : "/link".data ∈ rest := by
            rcases List.mem_cons.mp hlink with h | h
            · exact absurd (List.cons.inj h.symm).2 hA
            · exact h
          by_cases hB : cs = "c".data
          · simpa [analyzeLoop, hA, hB] using ih true sourceFile outputFile hlink' hne'
          · by_cases hC : cs.take 2 = "Fo".data
            · simpa [analyzeLoop, hA, hB, hC] using
                ih found sourceFile (some (cs.drop 2)) hlink' hne'
            · simpa [analyzeLoop, hA, hB, hC] using
                ih found sourceFile outputFile hlink' hne'
      · have hlink' : "/link".data ∈ rest := by
          rcases List.mem_cons.mp hlink with h | h
          · exact absurd (List.cons.inj h.symm).1 h4
          · exact h
        cases sourceFile with
        | some s => simp [analyzeLoop, h4]
        | none =>
          simpa [analyzeLoop, h4] using ih found (some (c :: cs)) outputFile hlink' hne'

/-- C7 (counterexample): with an empty-string argument before "/link", the
classifier raises IndexError at arg[0] instead of reporting not-cacheable,
so the claim fails as stated ("regardless of all other arguments"). -/
theorem analyzeCommandLine_link_counterexample :
    ("/link".data ∈ (["cl".data, [], "/link".data] : List Arg).tail) ∧
    analyzeCommandLine "/w".data ["cl".data, [], "/link".data] =
      Except.error PyError.indexError :=
  ⟨by decide, rfl⟩

/-- C7 (amended): for every argument list in which "/link" appears after
argument 0 and in which no argument after argument 0 is the empty string,
analyzeCommandLine reports not-cacheable, regardless of all other
arguments. -/
theorem analyzeCommandLine_link_not_cacheable (cwd a0 : Arg) (tail : List Arg)
    (hlink : "/link".data ∈ tail) (hne : ∀ arg ∈ tail, arg ≠ []) :
    analyzeCommandLine cwd (a0 :: tail) = .ok (false, none, none) :=
  analyzeLoop_link_not_cacheable cwd tail false none none hlink hne

theorem analyzeCommandLine_link_not_cacheable_witness :
    analyzeCommandLine "/w".data ["cl".data, "/c".data, "foo.cpp".data, "/link".data] =
      Except.ok (false, none, none) :=
  analyzeCommandLine_link_not_cacheable "/w".data "cl".data
    ["/c".data, "foo.cpp".data, "/link".data] (by decide) (by decide)

/-- C8 (code_bug evidence): ObjectCache.setEntry performs exactly makedirs,
copyfile, write — all directly at the final paths, with no temporary
location and no rename — and after the first operation the filesystem holds
the entry directory while the object blob does not yet exist, the very
intermediate state the claim says the atomic-rename strategy rules out. -/
theorem setEntry_exposes_partial_entry (cacheDir key obj : Arg) :
    setEntryOps false cacheDir key obj =
      [FsOp.makeDirs (cacheEntryDir cacheDir key),
       FsOp.copyFile obj (cachedObjectName cacheDir key),
       FsOp.writeFile (cachedCompilerOutputName cacheDir key)] ∧
    (applyOps initialFsState ((setEntryOps false cacheDir key obj).take 1)).dirs =
      [cacheEntryDir cacheDir key] ∧
    (applyOps initialFsState ((setEntryOps false cacheDir key obj).take 1)).files = [] :=
  ⟨rfl, rfl, rfl⟩

/-- C9: when setEntry raises a filesystem error on the miss path, the error
propagates before registerCacheEntry runs, so the entries count and the
recorded cache size are unchanged; the statistics update happens only after
a successful publish. -/
theorem setEntry_failure_preserves_entry_statistics (s : Stats) (e : PyError)
    (objSize maximumSize : Int) (entries : List Entry) :
    (missPath s 0 (some e) objSize maximumSize entries).1.cacheEntries = s.cacheEntries ∧
    (missPath s 0 (some e) objSize maximumSize entries).1.cacheSize = s.cacheSize ∧
    (missPath s 0 (some e) objSize maximumSize entries).2.2 = Except.error e := by
  refine ⟨?_, ?_, ?_⟩ <;> simp [missPath, registerCacheMiss]

/-- C10 (counterexample): the "/c" removal happens on the preprocessing
command whose slot 0 has already been replaced by the compiler binary, so
when the compiler-binary argument is itself the string "/c", computeKey
returns a key for a command line that contains no "/c" instead of raising
an error. -/
theorem computeKey_missing_compile_only_switch_counterexample :
    ("/c".data ∉ (["clcache".data, "foo.cpp".data] : List Arg)) ∧
    computeKey ⟨1, 1⟩ ppStub "/c".data ["clcache".data, "foo.cpp".data] =
      Except.ok (keyMessage ⟨1, 1⟩ ["foo.cpp".data] []) :=
  ⟨by decide, rfl⟩

/-- C10 (amended): computeKey is partial — it needs "/c" in the
preprocessing command built by substituting the compiler binary for
argument 0; for any command line not containing "/c", provided the compiler
binary is not itself the string "/c", the operation raises an error
(ValueError, or IndexError on an empty command line) instead of returning a
key. -/
theorem computeKey_requires_compile_only_switch
    (fp : Fingerprint) (runPP : List Arg → PPOutcome) (compilerBinary : Arg)
    (commandLine : List Arg)
    (habsent : "/c".data ∉ commandLine)
    (hcb : compilerBinary ≠ "/c".data) :
    ∃ e, computeKey fp runPP compilerBinary commandLine = Except.error e := by
  match commandLine with
  | [] => exact ⟨.indexError, rfl⟩
  | a :: rest =>
    refine ⟨.valueError, ?_⟩
    show computeKeyAux fp runPP compilerBinary rest = _
    have hnot : ¬ ("/c".data ∈ compilerBinary :: rest) := by
      intro hmem
      rcases List.mem_cons.mp hmem with h | h
      · exact hcb h.symm
      · exact habsent (List.mem_cons_of_mem _ h)
    unfold computeKeyAux
    rw [if_neg hnot]

theorem computeKey_requires_compile_only_switch_witness :
    ∃ e, computeKey ⟨0, 0⟩ ppStub "cl".data ["clcache".data, "foo.cpp".data] =
      Except.error e :=
  computeKey_requires_compile_only_switch ⟨0, 0⟩ ppStub "cl".data
    ["clcache".data, "foo.cpp".data] (by decide) (by decide)

end Clcache
